import Mathlib

/-!
Verification of the socket-ipc messaging core.

This file shallowly embeds the C sources of the repository
(protocol.c / protocol.h, net_common.c, server.c, client.c) in Lean 4 and
proves or refutes the frozen specification claims about them.

Conventions of the embedding:
* machine integers are `Nat` with explicit bounds (`< 2^32`, `< 2^64`)
  where overflow could matter; file descriptors are `Int` (they can be `-1`);
* wall-clock times and the millisecond interval metrics, `double` in C,
  are modelled as exact rationals `ℚ`;
* a byte stream delivered by a peer is a `List Nat` of byte values;
  `recv(fd, buf, n, MSG_WAITALL)` succeeds iff at least `n` bytes are
  available before the peer closes;
* `malloc` may fail; fallible allocation is an explicit `Bool` argument
  (`true` = allocation succeeds);
* pointers that are only compared against `NULL` are `Option` values.
-/

/-! ## Message codec (protocol.h / protocol.c) -/

/-- Model of `MSG_TYPE_TEXT` from protocol.h. -/
def MSG_TYPE_TEXT : Nat := 0x01

/-- Model of `MSG_TYPE_ACK` from protocol.h. -/
def MSG_TYPE_ACK : Nat := 0x03

/-- Model of `MSG_TYPE_ERROR` from protocol.h. -/
def MSG_TYPE_ERROR : Nat := 0x04

/-- Model of `MSG_FLAGS_NONE` from protocol.h. -/
def MSG_FLAGS_NONE : Nat := 0x00

/-- The 16-byte wire header of protocol.h: `type` is a `uint32_t`,
`length` a `uint64_t`, `flags` a `uint32_t`, in a packed struct. -/
structure MessageHeader where
  type : Nat
  length : Nat
  flags : Nat
deriving Repr, DecidableEq

/-- A header is valid when each field fits its C integer type. -/
def MessageHeader.Valid (h : MessageHeader) : Prop :=
  h.type < 2 ^ 32 ∧ h.length < 2 ^ 64 ∧ h.flags < 2 ^ 32

instance (h : MessageHeader) : Decidable h.Valid := by
  unfold MessageHeader.Valid; infer_instance

/-- Big-endian byte encoding of `x` on `w` bytes (most significant first).
This is the byte image produced by `htonl` / `htobe64` for a value that
fits in `w` bytes. -/
def toBytesBE : Nat → Nat → List Nat
  | 0, _ => []
  | w + 1, x => toBytesBE w (x / 256) ++ [x % 256]

/-- Big-endian byte decoding, the reading direction of `ntohl` / `be64toh`. -/
def fromBytesBE (l : List Nat) : Nat :=
  l.foldl (fun acc b => acc * 256 + b) 0

/-- Model of `message_header_serialize` (protocol.h): the 16 wire bytes of a header,
each field written big-endian at offsets 0 / 4 / 12. -/
def message_header_serialize (h : MessageHeader) : List Nat :=
  toBytesBE 4 h.type ++ toBytesBE 8 h.length ++ toBytesBE 4 h.flags

/-- Model of `message_header_deserialize` (protocol.h): parse 16 wire bytes back
into a header; any other byte count cannot be a header. -/
def message_header_deserialize (b : List Nat) : Option MessageHeader :=
  if b.length = 16 then
    some { type := fromBytesBE (b.take 4)
           length := fromBytesBE ((b.drop 4).take 8)
           flags := fromBytesBE (b.drop 12) }
  else
    none

theorem length_toBytesBE (w x : Nat) : (toBytesBE w x).length = w := by
  induction w generalizing x with
  | zero => rfl
  | succ w ih => simp [toBytesBE, ih]

theorem fromBytesBE_append_singleton (l : List Nat) (b : Nat) :
    fromBytesBE (l ++ [b]) = fromBytesBE l * 256 + b := by
  simp [fromBytesBE]

theorem fromBytesBE_toBytesBE (w x : Nat) (hx : x < 256 ^ w) :
    fromBytesBE (toBytesBE w x) = x := by
  induction w generalizing x with
  | zero =>
    simp [toBytesBE, fromBytesBE]
    omega
  | succ w ih =>
    rw [toBytesBE, fromBytesBE_append_singleton, ih]
    · omega
    · have : 256 ^ (w + 1) = 256 ^ w * 256 := by ring
      omega

theorem take_append_of_length (l1 l2 : List Nat) (h : l1.length = n) :
    (l1 ++ l2).take n = l1 := by
  subst h; simp

theorem drop_append_of_length (l1 l2 : List Nat) (h : l1.length = n) :
    (l1 ++ l2).drop n = l2 := by
  subst h; simp

theorem serialize_take_type (h : MessageHeader) :
    (message_header_serialize h).take 4 = toBytesBE 4 h.type := by
  rw [message_header_serialize, List.append_assoc]
  exact take_append_of_length _ _ (length_toBytesBE 4 h.type)

theorem serialize_drop_four (h : MessageHeader) :
    (message_header_serialize h).drop 4 = toBytesBE 8 h.length ++ toBytesBE 4 h.flags := by
  rw [message_header_serialize, List.append_assoc]
  exact drop_append_of_length _ _ (length_toBytesBE 4 h.type)

theorem serialize_length (h : MessageHeader) :
    (message_header_serialize h).length = 16 := by
  simp [message_header_serialize, length_toBytesBE]

/-- C1: for every valid header triple `(type, length, flags)`,
deserializing the serialized 16-byte form returns exactly the same
triple: `message_header_deserialize (message_header_serialize h) = some h`. -/
theorem c1_header_round_trip (h : MessageHeader) (hv : h.Valid) :
    message_header_deserialize (message_header_serialize h) = some h := by
  obtain ⟨ht, hl, hf⟩ := hv
  rw [message_header_deserialize, if_pos (serialize_length h)]
  have h12 : (message_header_serialize h).drop 12 = toBytesBE 4 h.flags := by
    have : (message_header_serialize h).drop 12
        = ((message_header_serialize h).drop 4).drop 8 := by
      rw [List.drop_drop]
    rw [this, serialize_drop_four]
    exact drop_append_of_length _ _ (length_toBytesBE 8 h.length)
  have h48 : ((message_header_serialize h).drop 4).take 8 = toBytesBE 8 h.length := by
    rw [serialize_drop_four]
    exact take_append_of_length _ _ (length_toBytesBE 8 h.length)
  rw [serialize_take_type, h48, h12,
    fromBytesBE_toBytesBE 4 h.type (by norm_num at ht ⊢; omega),
    fromBytesBE_toBytesBE 8 h.length (by norm_num at hl ⊢; omega),
    fromBytesBE_toBytesBE 4 h.flags (by norm_num at hf ⊢; omega)]

/-- Witness for C1 at the concrete header `(Text, 5, 0)`. -/
theorem c1_header_round_trip_witness :
    message_header_deserialize
      (message_header_serialize ⟨MSG_TYPE_TEXT, 5, MSG_FLAGS_NONE⟩)
      = some ⟨MSG_TYPE_TEXT, 5, MSG_FLAGS_NONE⟩ :=
  c1_header_round_trip ⟨MSG_TYPE_TEXT, 5, MSG_FLAGS_NONE⟩ (by decide)

/-- The in-memory `Message` struct of protocol.h: a header, a payload
pointer (`none` models `NULL`), and the actual payload size. -/
structure Message where
  header : MessageHeader
  payload : Option (List Nat)
  payload_size : Nat
deriving Repr, DecidableEq

/-- The bytes a `Message` actually carries (`NULL` payload carries none). -/
def Message.payloadBytes (m : Message) : List Nat :=
  m.payload.getD []

/-- Model of `message_create_text` (protocol.c). `allocOk` models whether the
`malloc(text_len)` call succeeds; on failure the C code returns the
message with `payload = NULL`, `payload_size = 0` but `header.length`
still set to `text_len`. -/
def message_create_text (text : List Nat) (allocOk : Bool) : Message :=
  let header : MessageHeader :=
    { type := MSG_TYPE_TEXT, length := text.length, flags := MSG_FLAGS_NONE }
  if 0 < text.length then
    if allocOk then
      { header := header, payload := some text, payload_size := text.length }
    else
      { header := header, payload := none, payload_size := 0 }
  else
    { header := header, payload := none, payload_size := 0 }

/-- Model of `message_create_ack` (protocol.c): type Ack, zero length, no flags,
no payload. -/
def message_create_ack : Message :=
  { header := { type := MSG_TYPE_ACK, length := 0, flags := MSG_FLAGS_NONE }
    payload := none
    payload_size := 0 }

/-- Model of `message_create_error` (protocol.c), same allocation model as
`message_create_text`. -/
def message_create_error (error : List Nat) (allocOk : Bool) : Message :=
  let header : MessageHeader :=
    { type := MSG_TYPE_ERROR, length := error.length, flags := MSG_FLAGS_NONE }
  if 0 < error.length then
    if allocOk then
      { header := header, payload := some error, payload_size := error.length }
    else
      { header := header, payload := none, payload_size := 0 }
  else
    { header := header, payload := none, payload_size := 0 }

/-! ## Wire transfer (net_common.c) -/

/-- Model of `recv(fd, buf, n, MSG_WAITALL)` on a stream that still holds the byte
list `stream` before the peer closes: succeeds iff at least `n` bytes are
available, returning the bytes read and the rest of the stream. -/
def recv_exact (stream : List Nat) (n : Nat) : Option (List Nat × List Nat) :=
  if n ≤ stream.length then some (stream.take n, stream.drop n) else none

/-- Result of `receive_message`: the C return value (`0` ok, `-1` error)
and the contents of the out-parameter `msg`. `msg = none` models the case
where the function returned before ever writing `*msg` (header read
failed), leaving the caller's struct untouched. -/
structure RecvResult where
  ret : Int
  msg : Option Message
deriving Repr, DecidableEq

/-- Model of `receive_message` (net_common.c): read 16 header bytes (fail on short
read), byte-order-decode them, initialize `msg` with no payload, then if
`header.length > 0` allocate (`allocOk`) and read exactly `header.length`
payload bytes; on allocation failure or short payload read the payload is
freed and reset to `NULL` / size `0` and `-1` is returned. -/
def receive_message (stream : List Nat) (allocOk : Bool) : RecvResult :=
  match recv_exact stream 16 with
  | none => { ret := -1, msg := none }
  | some (hb, rest) =>
    match message_header_deserialize hb with
    | none => { ret := -1, msg := none }
    | some header =>
      if 0 < header.length then
        if allocOk then
          match recv_exact rest header.length with
          | none =>
            { ret := -1
              msg := some { header := header, payload := none, payload_size := 0 } }
          | some (pb, _) =>
            { ret := 0
              msg := some { header := header, payload := some pb,
                            payload_size := header.length } }
        else
          { ret := -1
            msg := some { header := header, payload := none, payload_size := 0 } }
      else
        { ret := 0
          msg := some { header := header, payload := none, payload_size := 0 } }

theorem recv_exact_length {stream : List Nat} {n : Nat} {a b : List Nat}
    (h : recv_exact stream n = some (a, b)) : a.length = n := by
  rw [recv_exact] at h
  split at h
  · simp only [Option.some.injEq, Prod.mk.injEq] at h
    rw [← h.1]
    simp [List.length_take]
    omega
  · exact absurd h (by simp)

/-- C2: whenever `receive_message` succeeds (returns 0) the produced
`Message` carries exactly `header.length` payload bytes and records that
size; whenever it fails (returns -1) after having written the out-message,
the out-message carries no payload (`payload = NULL`, `payload_size = 0`),
so no partially built `Message` is ever produced. -/
theorem c2_receive_message_exact_or_nothing (stream : List Nat) (allocOk : Bool) :
    ((receive_message stream allocOk).ret = 0 →
      ∃ m, (receive_message stream allocOk).msg = some m ∧
        m.payload_size = m.header.length ∧
        m.payloadBytes.length = m.header.length) ∧
    ((receive_message stream allocOk).ret ≠ 0 →
      ∀ m, (receive_message stream allocOk).msg = some m →
        m.payload = none ∧ m.payload_size = 0) := by
  rw [receive_message]
  split
  · exact ⟨fun h => absurd h (by simp), fun _ m hm => absurd hm (by simp)⟩
  split
  · exact ⟨fun h => absurd h (by simp), fun _ m hm => absurd hm (by simp)⟩
  split
  · split
    · split
      · refine ⟨fun h => absurd h (by simp), fun _ m hm => ?_⟩
        simp only [Option.some.injEq] at hm
        subst hm; exact ⟨rfl, rfl⟩
      · rename_i hp
        refine ⟨fun _ => ⟨_, rfl, rfl, ?_⟩, fun h => absurd rfl h⟩
        simpa [Message.payloadBytes] using recv_exact_length hp
    · refine ⟨fun h => absurd h (by simp), fun _ m hm => ?_⟩
      simp only [Option.some.injEq] at hm
      subst hm; exact ⟨rfl, rfl⟩
  · rename_i hl
    refine ⟨fun _ => ⟨_, rfl, ?_, ?_⟩, fun h => absurd rfl h⟩
    · simp only []; omega
    · simp only [Message.payloadBytes, Option.getD_none, List.length_nil]; omega

/-- Witness for C2: a complete 2-byte-payload frame is received exactly,
and a frame whose payload is cut short (1 of 2 declared bytes) leaves the
out-message with no payload. -/
theorem c2_receive_message_exact_or_nothing_witness :
    (∃ m, (receive_message
        (message_header_serialize ⟨MSG_TYPE_TEXT, 2, MSG_FLAGS_NONE⟩ ++ [7, 8])
        true).msg = some m ∧
      m.payload_size = m.header.length ∧
      m.payloadBytes.length = m.header.length) ∧
    (∀ m, (receive_message
        (message_header_serialize ⟨MSG_TYPE_TEXT, 2, MSG_FLAGS_NONE⟩ ++ [7])
        true).msg = some m →
      m.payload = none ∧ m.payload_size = 0) :=
  ⟨(c2_receive_message_exact_or_nothing
      (message_header_serialize ⟨MSG_TYPE_TEXT, 2, MSG_FLAGS_NONE⟩ ++ [7, 8])
      true).1 (by decide),
   (c2_receive_message_exact_or_nothing
      (message_header_serialize ⟨MSG_TYPE_TEXT, 2, MSG_FLAGS_NONE⟩ ++ [7])
      true).2 (by decide)⟩

/-- Counterexample to C6 as stated: when `malloc` fails inside
`message_create_text` for a 1-byte text, the returned message has
`header.length = 1` but `payload_size = 0`, so the invariant
`header.length == payload_size` does NOT hold for every constructed
message. -/
theorem c6_counterexample_alloc_failure :
    ¬ ((message_create_text [65] false).header.length
        = (message_create_text [65] false).payload_size) := by
  decide

/-- C6 (amended): when allocation succeeds (and always when the payload is
empty), every constructor-produced `Message` satisfies
`header.length = payload_size` and carries exactly that many bytes;
`message_create_ack` always has type `Ack`, flags `None`, zero declared
length, no payload and `payload_size = 0`.  (On allocation failure,
`message_create_text` / `message_create_error` with a nonzero length
return a message violating `header.length = payload_size`, as the
counterexample shows.) -/
theorem c6_constructor_invariants (text err : List Nat) :
    (message_create_text text true).header.length
      = (message_create_text text true).payload_size ∧
    (message_create_text text true).payloadBytes.length
      = (message_create_text text true).header.length ∧
    (message_create_error err true).header.length
      = (message_create_error err true).payload_size ∧
    (message_create_error err true).payloadBytes.length
      = (message_create_error err true).header.length ∧
    message_create_ack.header.type = MSG_TYPE_ACK ∧
    message_create_ack.header.flags = MSG_FLAGS_NONE ∧
    message_create_ack.header.length = 0 ∧
    message_create_ack.payload = none ∧
    message_create_ack.payload_size = 0 := by
  refine ⟨?_, ?_, ?_, ?_, rfl, rfl, rfl, rfl, rfl⟩
  · rw [message_create_text]; split
    · simp
    · simp only []; omega
  · rw [message_create_text]; split
    · simp [Message.payloadBytes]
    · simp only [Message.payloadBytes, Option.getD_none, List.length_nil]; omega
  · rw [message_create_error]; split
    · simp
    · simp only []; omega
  · rw [message_create_error]; split
    · simp [Message.payloadBytes]
    · simp only [Message.payloadBytes, Option.getD_none, List.length_nil]; omega

/-! ## Server engine (server.h / server.c) -/

/-- Model of `ClientConnection` from server.h: the socket fd, the `SSL*` pointer
(`none` models `NULL`) and the `is_ssl` flag. -/
structure ClientConnection where
  fd : Int
  ssl : Option Nat
  is_ssl : Bool
deriving Repr, DecidableEq

/-- The `Server` struct of server.h restricted to the fields the event
loop and metrics code mutate.  `clients` is the live-entry segment of the
`clients` array (its length is `client_count`); `client_capacity` is the
allocated capacity.  The fields `mode`, `address`, `enable_tls`,
`server_fd` and `ssl_ctx` are configuration handles never touched by the
code under verification and are omitted.  The `double` metrics fields are
exact rationals. -/
structure Server where
  running : Bool
  clients : List ClientConnection
  client_capacity : Nat
  total_clients : Nat
  total_messages : Nat
  total_bytes : Nat
  last_message_time : ℚ
  total_interval_ms : ℚ
  min_interval_ms : ℚ
  max_interval_ms : ℚ
  interval_count : Nat
deriving Repr, DecidableEq

/-- The metrics state written by `server_init` (server.c): every counter
and timestamp zero, no clients, zero capacity. -/
def initial_server : Server :=
  { running := false, clients := [], client_capacity := 0, total_clients := 0
    total_messages := 0, total_bytes := 0, last_message_time := 0
    total_interval_ms := 0, min_interval_ms := 0, max_interval_ms := 0
    interval_count := 0 }

/-- Model of `add_client` (server.c).  If the table is full it doubles the capacity
(8 when it was 0) via `realloc`; when that allocation fails it logs and
returns with the server unchanged (the connection is NOT added and the
loop is NOT stopped).  Otherwise the connection is appended and both
`client_count` and `total_clients` are incremented. -/
def add_client (s : Server) (allocOk : Bool) (fd : Int) (ssl : Option Nat) : Server :=
  if s.clients.length ≥ s.client_capacity then
    if allocOk then
      let new_capacity := if s.client_capacity = 0 then 8 else s.client_capacity * 2
      { s with client_capacity := new_capacity
               clients := s.clients ++ [⟨fd, ssl, ssl.isSome⟩]
               total_clients := s.total_clients + 1 }
    else
      s
  else
    { s with clients := s.clients ++ [⟨fd, ssl, ssl.isSome⟩]
             total_clients := s.total_clients + 1 }

/-- The shifting `for` loop of `remove_client` (server.c):
`for (i = index; i < client_count - 1; i++) clients[i] = clients[i+1]`. -/
def move_clients_loop (l : List ClientConnection) (i : Nat) : List ClientConnection :=
  if h : i + 1 < l.length then
    move_clients_loop (l.set i (l.get ⟨i + 1, h⟩)) (i + 1)
  else
    l
termination_by l.length - i
decreasing_by simp [List.length_set]; omega

/-- Model of `remove_client` (server.c): out-of-range indices are rejected and the
server is untouched; otherwise the entries above `index` are shifted down
one slot and `client_count` is decremented (the transport resources of the
removed entry are closed, an external effect).  The live segment loses its
final slot via `dropLast`. -/
def remove_client (s : Server) (index : Nat) : Server :=
  if index ≥ s.clients.length then
    s
  else
    { s with clients := (move_clients_loop s.clients index).dropLast }

/-- The metrics-recording block of `handle_client_message` (server.c,
lines between the receive and the handler call): if a previous message
timestamp exists, accumulate the inter-arrival interval in milliseconds
into sum / min / max / count; always remember `now` as the last message
time. -/
def record_metrics (s : Server) (now : ℚ) : Server :=
  let s1 :=
    if 0 < s.last_message_time then
      let interval_ms := (now - s.last_message_time) * 1000
      let s' := { s with total_interval_ms := s.total_interval_ms + interval_ms }
      let s' :=
        if s.interval_count = 0 ∨ interval_ms < s.min_interval_ms then
          { s' with min_interval_ms := interval_ms }
        else s'
      let s' :=
        if s.interval_count = 0 ∨ s.max_interval_ms < interval_ms then
          { s' with max_interval_ms := interval_ms }
        else s'
      { s' with interval_count := s.interval_count + 1 }
    else s
  { s1 with last_message_time := now }

/-- Model of `handle_client_message` (server.c).  `recv` is the outcome of
`receive_message` on connection `client_index` (`some m` iff it returned
0 with out-message `m`); `now` is the `gettimeofday` reading; `sendOk` is
the outcome `send_message` would report for the Ack reply.  Returns the
new server state and the list of `(fd, message)` transmissions attempted.
Note the C code discards `send_message`'s return value. -/
def handle_client_message (s : Server) (client_index : Nat)
    (recv : Option Message) (now : ℚ) (sendOk : Bool) :
    Server × List (Int × Message) :=
  match recv with
  | none => (remove_client s client_index, [])
  | some msg =>
    let client := s.clients.getD client_index ⟨-1, none, false⟩
    let s1 := record_metrics s now
    let s2 := { s1 with total_messages := s1.total_messages + 1
                        total_bytes := s1.total_bytes + msg.payload_size }
    if msg.header.type ≠ MSG_TYPE_ACK then
      (s2, [(client.fd, message_create_ack)])
    else
      (s2, [])

/-- The pollfd-array growth step at the top of `run_event_loop`
(server.c): `needed = 1 + client_count`; growth to `needed + 8` happens
when `needed` exceeds the current capacity, and a failed `realloc` makes
the loop `break` (modelled as `none`). -/
def poll_grow (pollfd_capacity : Nat) (client_count : Nat) (allocOk : Bool) : Option Nat :=
  if 1 + client_count > pollfd_capacity then
    if allocOk then some (1 + client_count + 8) else none
  else
    some pollfd_capacity

/-- One head-of-iteration of `run_event_loop` (server.c): grow the pollfd
array (breaking the loop on allocation failure), then service a pending
accept on the listening socket when one is ready — `acceptEvent` carries
the accepted fd, the TLS session and whether `add_client`'s own
allocation succeeds.  `none` means the loop terminated. -/
def event_loop_iteration (s : Server) (pollfd_capacity : Nat)
    (pollAllocOk : Bool) (acceptEvent : Option (Int × Option Nat × Bool)) :
    Option (Server × Nat) :=
  match poll_grow pollfd_capacity s.clients.length pollAllocOk with
  | none => none
  | some cap =>
    match acceptEvent with
    | none => some (s, cap)
    | some (fd, ssl, clientAllocOk) =>
      some (add_client s clientAllocOk fd ssl, cap)

/-- Model of `server_get_metrics` (server.c), average inter-arrival interval
output: `total_interval_ms / interval_count` when at least one interval
was measured, else 0. -/
def server_get_metrics_avg_latency_ms (s : Server) : ℚ :=
  if 0 < s.interval_count then s.total_interval_ms / s.interval_count else 0

/-- Model of `server_get_metrics` (server.c), minimum inter-arrival interval
output. -/
def server_get_metrics_min_latency_ms (s : Server) : ℚ :=
  if 0 < s.interval_count then s.min_interval_ms else 0

/-- Model of `server_get_metrics` (server.c), maximum inter-arrival interval
output. -/
def server_get_metrics_max_latency_ms (s : Server) : ℚ :=
  if 0 < s.interval_count then s.max_interval_ms else 0

theorem set_succ_eraseIdx {α : Type} (l : List α) (i : Nat) (h : i + 1 < l.length) :
    (l.set i (l.get ⟨i + 1, h⟩)).eraseIdx (i + 1) = l.eraseIdx i := by
  apply List.ext_getElem
  · simp only [List.length_eraseIdx, List.length_set]
    rw [if_pos h, if_pos (show i < l.length by omega)]
  · intro n h1 h2
    have hn : n + 1 < l.length := by
      rw [List.length_eraseIdx] at h2
      split at h2 <;> omega
    rw [List.getElem_eraseIdx, List.getElem_eraseIdx]
    by_cases hni : n < i
    · rw [dif_pos (by omega), dif_pos hni, List.getElem_set_ne (by omega)]
    · by_cases hne : n = i
      · subst hne
        rw [dif_pos (by omega), dif_neg hni,
          List.getElem_set_self (by rw [List.length_set]; omega)]
        simp
      · rw [dif_neg (by omega), dif_neg hni, List.getElem_set_ne (by omega)]

theorem move_clients_loop_dropLast (n : Nat) :
    ∀ (l : List ClientConnection) (i : Nat), l.length ≤ i + n → i < l.length →
      (move_clients_loop l i).dropLast = l.eraseIdx i := by
  induction n with
  | zero => intro l i hn hi; omega
  | succ n ih =>
    intro l i hn hi
    rw [move_clients_loop]
    by_cases h : i + 1 < l.length
    · rw [dif_pos h]
      rw [ih (l.set i (l.get ⟨i + 1, h⟩)) (i + 1)
        (by simp [List.length_set]; omega) (by simp [List.length_set]; omega)]
      exact set_succ_eraseIdx l i h
    · rw [dif_neg h]
      exact List.dropLast_eq_eraseIdx (by omega)

/-- C10: for an in-range index, `remove_client` removes exactly the entry
at that index (the table becomes `take i ++ drop (i+1)`), shrinks the
count by one, preserves the relative order of the survivors (the result
is a sublist of the original), and — when the table held no duplicates —
every surviving connection still appears exactly once; for an
out-of-range index the server is left completely unchanged. -/
theorem c10_remove_client_exact (s : Server) (i : Nat) :
    (i < s.clients.length →
      (remove_client s i).clients = s.clients.take i ++ s.clients.drop (i + 1) ∧
      (remove_client s i).clients.length = s.clients.length - 1 ∧
      (remove_client s i).clients.Sublist s.clients ∧
      (s.clients.Nodup → ∀ c ∈ (remove_client s i).clients,
        (remove_client s i).clients.count c = 1)) ∧
    (s.clients.length ≤ i → remove_client s i = s) := by
  constructor
  · intro hi
    have hcl : (remove_client s i).clients = s.clients.eraseIdx i := by
      rw [remove_client, if_neg (by omega)]
      exact move_clients_loop_dropLast s.clients.length s.clients i
        (by omega) hi
    have hsub : (remove_client s i).clients.Sublist s.clients := by
      rw [hcl]; exact List.eraseIdx_sublist s.clients i
    refine ⟨?_, ?_, hsub, ?_⟩
    · rw [hcl]; exact List.eraseIdx_eq_take_drop_succ s.clients i
    · rw [hcl, List.length_eraseIdx, if_pos hi]
    · intro hnd c hc
      exact List.count_eq_one_of_mem (hnd.sublist hsub) hc
  · intro hi
    rw [remove_client, if_pos (by omega)]

/-- Witness for C10: a concrete 3-entry table with index 1 removed, and
the same table with the out-of-range index 5. -/
theorem c10_remove_client_exact_witness :
    (remove_client
        { initial_server with
            clients := [⟨4, none, false⟩, ⟨5, none, false⟩, ⟨6, none, false⟩] }
        1).clients
      = [(⟨4, none, false⟩ : ClientConnection), ⟨5, none, false⟩, ⟨6, none, false⟩].take 1
        ++ [(⟨4, none, false⟩ : ClientConnection), ⟨5, none, false⟩, ⟨6, none, false⟩].drop (1 + 1) ∧
    remove_client
        { initial_server with
            clients := [⟨4, none, false⟩, ⟨5, none, false⟩, ⟨6, none, false⟩] }
        5
      = { initial_server with
            clients := [⟨4, none, false⟩, ⟨5, none, false⟩, ⟨6, none, false⟩] } :=
  ⟨((c10_remove_client_exact
      { initial_server with
          clients := [⟨4, none, false⟩, ⟨5, none, false⟩, ⟨6, none, false⟩] }
      1).1 (by simp)).1,
   (c10_remove_client_exact
      { initial_server with
          clients := [⟨4, none, false⟩, ⟨5, none, false⟩, ⟨6, none, false⟩] }
      5).2 (by simp)⟩

/-- C3: for every message the server successfully receives, if its type
is not `Ack` exactly one synthesized `Ack` is sent back on the same
connection (the fd of the client at `client_index`); if its type is
`Ack` no reply at all is sent. -/
theorem c3_ack_reply_policy (s : Server) (i : Nat) (m : Message) (now : ℚ)
    (sendOk : Bool) :
    (m.header.type ≠ MSG_TYPE_ACK →
      (handle_client_message s i (some m) now sendOk).2
        = [((s.clients.getD i ⟨-1, none, false⟩).fd, message_create_ack)]) ∧
    (m.header.type = MSG_TYPE_ACK →
      (handle_client_message s i (some m) now sendOk).2 = []) := by
  constructor <;> intro h <;> simp [handle_client_message, h]

/-- Witness for C3: on a one-connection server with fd 7, a received Text
message elicits exactly one Ack on fd 7 and a received Ack elicits
nothing. -/
theorem c3_ack_reply_policy_witness :
    (handle_client_message
        { initial_server with clients := [⟨7, none, false⟩], client_capacity := 8 }
        0 (some (message_create_text [65] true)) 1 true).2
      = [(7, message_create_ack)] ∧
    (handle_client_message
        { initial_server with clients := [⟨7, none, false⟩], client_capacity := 8 }
        0 (some message_create_ack) 1 true).2 = [] := by
  constructor
  · have := (c3_ack_reply_policy
      { initial_server with clients := [⟨7, none, false⟩], client_capacity := 8 }
      0 (message_create_text [65] true) 1 true).1 (by decide)
    simpa using this
  · exact (c3_ack_reply_policy
      { initial_server with clients := [⟨7, none, false⟩], client_capacity := 8 }
      0 message_create_ack 1 true).2 (by decide)

/-- Counterexample to C4 as stated: on a one-connection server, a
successfully received Text message whose Ack reply FAILS to send
(`sendOk = false`) leaves the connection in the table — the C code
discards `send_message`'s return value — whereas removal as on a receive
failure would have emptied the table. -/
theorem c4_counterexample_send_failure_not_removed :
    (handle_client_message
        { initial_server with clients := [⟨7, none, false⟩], client_capacity := 8 }
        0 (some (message_create_text [65] true)) 1 false).1.clients
      = [⟨7, none, false⟩] ∧
    (remove_client
        { initial_server with clients := [⟨7, none, false⟩], client_capacity := 8 }
        0).clients = [] := by
  constructor
  · decide
  · simp [remove_client, move_clients_loop]

/-- C4 (amended): the result of sending the synthesized Ack is ignored —
after a successful receive the connection table is unchanged whatever the
send outcome; the table entry is removed (as `remove_client` does)
exactly when the RECEIVE fails. -/
theorem c4_amended_send_failure_ignored (s : Server) (i : Nat) (m : Message)
    (now : ℚ) (sendOk : Bool) :
    (handle_client_message s i (some m) now sendOk).1.clients = s.clients ∧
    (handle_client_message s i none now sendOk).1 = remove_client s i := by
  refine ⟨?_, rfl⟩
  rw [handle_client_message]
  simp only [record_metrics]
  split <;> split
  all_goals first
    | rfl
    | (split <;> split <;> rfl)

/-- Counterexample to C7 as stated: with the connection table full
(`client_count = client_capacity = 0` in the fresh server) an accept
event whose `add_client` growth allocation FAILS does not terminate the
event loop — the iteration yields `some` (loop continues) with the server
unchanged (the client is silently not added); only pollfd growth failure
is fatal. -/
theorem c7_counterexample_table_alloc_not_fatal :
    initial_server.client_capacity ≤ initial_server.clients.length ∧
    event_loop_iteration initial_server 10 true (some (5, none, false))
      = some (initial_server, 10) := by
  decide

/-- C7 (amended): allocation failure while growing the POLLFD array
terminates the event loop (the iteration breaks), but allocation failure
while growing the CLIENT CONNECTION TABLE is not fatal — `add_client`
returns without adding the connection and the loop continues with the
server unchanged. -/
theorem c7_amended_pollfd_fatal_table_not (s : Server) (cap : Nat)
    (ev : Option (Int × Option Nat × Bool)) (fd : Int) (ssl : Option Nat) :
    (cap < 1 + s.clients.length → event_loop_iteration s cap false ev = none) ∧
    (s.client_capacity ≤ s.clients.length → 1 + s.clients.length ≤ cap →
      event_loop_iteration s cap true (some (fd, ssl, false))
        = some (s, cap)) := by
  constructor
  · intro h
    rw [event_loop_iteration, poll_grow, if_pos (by omega)]
    simp
  · intro hfull hcap
    rw [event_loop_iteration, poll_grow, if_neg (by omega)]
    simp only [add_client, if_pos (show s.clients.length ≥ s.client_capacity from hfull)]
    simp

/-- Witness for C7 (amended) at concrete inputs: a fresh server with a
too-small pollfd array and a failing pollfd allocation breaks the loop;
a full client table with a failing table allocation continues. -/
theorem c7_amended_pollfd_fatal_table_not_witness :
    event_loop_iteration initial_server 0 false none = none ∧
    event_loop_iteration initial_server 4 true (some (9, none, false))
      = some (initial_server, 4) :=
  ⟨(c7_amended_pollfd_fatal_table_not initial_server 0 none 9 none).1 (by decide),
   (c7_amended_pollfd_fatal_table_not initial_server 4 (some (9, none, false)) 9 none).2
     (by decide) (by decide)⟩

/-! ## Client session (client.h / client.c) -/

/-- The `Client` struct of client.h restricted to the fields
`client_connect` / `client_disconnect` mutate.  `mode`, `address` and
`ssl_ctx` are configuration handles never touched by the verified code
paths and are omitted. -/
structure Client where
  enable_tls : Bool
  fd : Int
  ssl : Option Nat
  connected : Bool
  timeout_sec : Int
deriving Repr, DecidableEq

/-- Model of `client_disconnect` (client.c): a no-op unless `connected`; otherwise
shut the TLS session down when one exists (`ssl := NULL`), close the
socket when `fd >= 0` (`fd := -1`), and clear `connected`. -/
def client_disconnect (c : Client) : Client :=
  if c.connected = false then
    c
  else
    let c1 :=
      if c.enable_tls = true ∧ c.ssl.isSome = true then { c with ssl := none } else c
    let c2 := if 0 ≤ c1.fd then { c1 with fd := -1 } else c1
    { c2 with connected := false }

/-- C8: `client_disconnect` is idempotent.  On an already-Disconnected
session it is a no-op leaving the whole session state unchanged; on a
Connected session (which, as produced by `client_connect`, has a
nonnegative fd and a TLS session only when TLS is enabled) it transitions
to Disconnected: `connected = false`, `fd = -1`, `ssl = NULL`; and a
second call after any call changes nothing. -/
theorem c8_disconnect_idempotent (c : Client) :
    (c.connected = false → client_disconnect c = c) ∧
    (c.connected = true → 0 ≤ c.fd → (c.enable_tls = false → c.ssl = none) →
      (client_disconnect c).connected = false ∧
      (client_disconnect c).fd = -1 ∧
      (client_disconnect c).ssl = none) ∧
    client_disconnect (client_disconnect c) = client_disconnect c := by
  refine ⟨?_, ?_, ?_⟩
  · intro h
    rw [client_disconnect, if_pos h]
  · intro hc hfd htls
    simp only [client_disconnect]
    rw [if_neg (by simp [hc])]
    split_ifs with h1 h2 h2 <;> simp_all <;> cases hssl : c.ssl <;> simp_all
  · by_cases hcon : c.connected = false
    · have h1 : client_disconnect c = c := by rw [client_disconnect, if_pos hcon]
      rw [h1, h1]
    · have hfalse : (client_disconnect c).connected = false := by
        simp only [client_disconnect]
        rw [if_neg hcon]
      conv_lhs => rw [client_disconnect]
      rw [if_pos hfalse]

/-- Witness for C8: a connected TLS session with fd 3 disconnects to
`(connected = false, fd = -1, ssl = NULL)`, and a disconnected session is
untouched. -/
theorem c8_disconnect_idempotent_witness :
    (client_disconnect ⟨true, 3, some 1, true, 5⟩).connected = false ∧
    (client_disconnect ⟨true, 3, some 1, true, 5⟩).fd = -1 ∧
    (client_disconnect ⟨true, 3, some 1, true, 5⟩).ssl = none ∧
    client_disconnect ⟨false, -1, none, false, 5⟩ = ⟨false, -1, none, false, 5⟩ := by
  refine ⟨?_, ?_, ?_, ?_⟩
  · exact ((c8_disconnect_idempotent ⟨true, 3, some 1, true, 5⟩).2.1
      (by decide) (by decide) (by decide)).1
  · exact ((c8_disconnect_idempotent ⟨true, 3, some 1, true, 5⟩).2.1
      (by decide) (by decide) (by decide)).2.1
  · exact ((c8_disconnect_idempotent ⟨true, 3, some 1, true, 5⟩).2.1
      (by decide) (by decide) (by decide)).2.2
  · exact (c8_disconnect_idempotent ⟨false, -1, none, false, 5⟩).1 (by decide)

/-- The outcome of one connection attempt of `client_connect` (client.c):
whether socket creation / address resolution / `connect` yields a valid
fd, whether `set_socket_timeout` succeeds, and whether the TLS handshake
(`connect_tls`, consulted only when TLS is enabled) succeeds. -/
structure AttemptOutcome where
  sockOk : Bool
  timeoutOk : Bool
  tlsOk : Bool
deriving Repr, DecidableEq

/-- Model of `max_retries` in `client_connect` (client.c). -/
def max_retries : Nat := 5

/-- An attempt succeeds when every stage the code consults succeeds. -/
def attempt_succeeds (enable_tls : Bool) (a : AttemptOutcome) : Prop :=
  a.sockOk = true ∧ a.timeoutOk = true ∧ (enable_tls = true → a.tlsOk = true)

instance (enable_tls : Bool) (a : AttemptOutcome) :
    Decidable (attempt_succeeds enable_tls a) := by
  unfold attempt_succeeds; infer_instance

/-- The `while (retry_count < max_retries)` loop of `client_connect`
(client.c).  `outcome k` is the result of the attempt made with
`retry_count = k`.  Each of the three failure sites runs the identical
backoff code: when `retry_count < max_retries - 1` it sleeps
`2 ^ retry_count` seconds (recorded in `sleeps`) and retries, otherwise
it returns failure immediately.  `attempts` counts the connection
attempts made.  Returns `(success, delays slept, attempts made)`. -/
def client_connect_loop (outcome : Nat → AttemptOutcome) (enable_tls : Bool)
    (retry_count : Nat) (sleeps : List Nat) (attempts : Nat) :
    Bool × List Nat × Nat :=
  if h : retry_count < max_retries then
    let a := outcome retry_count
    if a.sockOk = false then
      if retry_count < max_retries - 1 then
        client_connect_loop outcome enable_tls (retry_count + 1)
          (sleeps ++ [2 ^ retry_count]) (attempts + 1)
      else (false, sleeps, attempts + 1)
    else if a.timeoutOk = false then
      if retry_count < max_retries - 1 then
        client_connect_loop outcome enable_tls (retry_count + 1)
          (sleeps ++ [2 ^ retry_count]) (attempts + 1)
      else (false, sleeps, attempts + 1)
    else if enable_tls = true ∧ a.tlsOk = false then
      if retry_count < max_retries - 1 then
        client_connect_loop outcome enable_tls (retry_count + 1)
          (sleeps ++ [2 ^ retry_count]) (attempts + 1)
      else (false, sleeps, attempts + 1)
    else (true, sleeps, attempts + 1)
  else (false, sleeps, attempts)
termination_by max_retries - retry_count

/-- Model of `client_connect` (client.c): run the retry loop from
`retry_count = 0` with no delays slept and no attempts made. -/
def client_connect (outcome : Nat → AttemptOutcome) (enable_tls : Bool) :
    Bool × List Nat × Nat :=
  client_connect_loop outcome enable_tls 0 [] 0

theorem client_connect_loop_retry (outcome : Nat → AttemptOutcome)
    (enable_tls : Bool) (k : Nat) (sleeps : List Nat) (attempts : Nat)
    (hk : k < max_retries - 1)
    (hfail : ¬ attempt_succeeds enable_tls (outcome k)) :
    client_connect_loop outcome enable_tls k sleeps attempts
      = client_connect_loop outcome enable_tls (k + 1)
          (sleeps ++ [2 ^ k]) (attempts + 1) := by
  rw [client_connect_loop, dif_pos (by simp [max_retries] at hk ⊢; omega)]
  simp only [attempt_succeeds, not_and_or] at hfail
  cases hs : (outcome k).sockOk with
  | false => simp [hs, hk]
  | true =>
    rw [if_neg (by simp [hs])]
    cases ht : (outcome k).timeoutOk with
    | false => simp [ht, hk]
    | true =>
      rw [if_neg (by simp [ht])]
      have htls : enable_tls = true ∧ (outcome k).tlsOk = false := by
        rcases hfail with h | h | h
        · simp [hs] at h
        · simp [ht] at h
        · constructor
          · by_contra he
            exact h (fun hcon => absurd hcon he)
          · by_contra he
            exact h (fun _ => by simpa using he)
      rw [if_pos htls, if_pos hk]

theorem client_connect_loop_last (outcome : Nat → AttemptOutcome)
    (enable_tls : Bool) (sleeps : List Nat) (attempts : Nat)
    (hfail : ¬ attempt_succeeds enable_tls (outcome 4)) :
    client_connect_loop outcome enable_tls 4 sleeps attempts
      = (false, sleeps, attempts + 1) := by
  rw [client_connect_loop, dif_pos (by simp [max_retries])]
  simp only [attempt_succeeds, not_and_or] at hfail
  cases hs : (outcome 4).sockOk with
  | false => simp [hs, max_retries]
  | true =>
    rw [if_neg (by simp [hs])]
    cases ht : (outcome 4).timeoutOk with
    | false => simp [ht, max_retries]
    | true =>
      rw [if_neg (by simp [ht])]
      have htls : enable_tls = true ∧ (outcome 4).tlsOk = false := by
        rcases hfail with h | h | h
        · simp [hs] at h
        · simp [ht] at h
        · constructor
          · by_contra he
            exact h (fun hcon => absurd hcon he)
          · by_contra he
            exact h (fun _ => by simpa using he)
      rw [if_pos htls, if_neg (by simp [max_retries])]

/-- C5: when every connection attempt fails, `client_connect` makes
exactly 5 attempts and returns failure; the delays slept are exactly
`[1, 2, 4, 8]` seconds — `2 ^ (k-1)` seconds before retry `k` for
retries 1..4 (attempts 2..5) — and no delay follows the 5th (final)
failed attempt, so the 16-second entry of the schedule is never slept. -/
theorem c5_connect_backoff_exhaustion (outcome : Nat → AttemptOutcome)
    (enable_tls : Bool)
    (hfail : ∀ k, ¬ attempt_succeeds enable_tls (outcome k)) :
    client_connect outcome enable_tls = (false, [1, 2, 4, 8], 5) := by
  rw [client_connect,
    client_connect_loop_retry outcome enable_tls 0 [] 0
      (by simp [max_retries]) (hfail 0)]
  norm_num
  rw [client_connect_loop_retry outcome enable_tls 1 [1] 1
    (by simp [max_retries]) (hfail 1)]
  norm_num
  rw [client_connect_loop_retry outcome enable_tls 2 [1, 2] 2
    (by simp [max_retries]) (hfail 2)]
  norm_num
  rw [client_connect_loop_retry outcome enable_tls 3 [1, 2, 4] 3
    (by simp [max_retries]) (hfail 3)]
  norm_num
  rw [client_connect_loop_last outcome enable_tls [1, 2, 4, 8] 4 (hfail 4)]

/-- Witness for C5: every attempt's socket stage fails; the call returns
failure after 5 attempts with delays 1, 2, 4, 8. -/
theorem c5_connect_backoff_exhaustion_witness :
    client_connect (fun _ => ⟨false, true, true⟩) false = (false, [1, 2, 4, 8], 5) :=
  c5_connect_backoff_exhaustion (fun _ => ⟨false, true, true⟩) false
    (fun k => by simp [attempt_succeeds])

/-! ## Metrics accuracy (server.c) -/

/-- The millisecond inter-arrival differences of consecutive timestamps. -/
def inter_arrival_diffs (ts : List ℚ) : List ℚ :=
  List.zipWith (fun a b => (b - a) * 1000) ts ts.tail

/-- As `inter_arrival_diffs`, with the previous arrival time explicit. -/
def interval_diffs (prev : ℚ) (ts : List ℚ) : List ℚ :=
  List.zipWith (fun a b => (b - a) * 1000) (prev :: ts) ts

theorem foldl_min_mem (l : List ℚ) : ∀ a : ℚ, l.foldl min a ∈ a :: l := by
  induction l with
  | nil => intro a; simp
  | cons b t ih =>
    intro a
    rcases List.mem_cons.mp (ih (min a b)) with h1 | h1
    · rcases min_choice a b with hm | hm
      · simp only [List.foldl_cons]
        rw [h1, hm]
        simp
      · simp only [List.foldl_cons]
        rw [h1, hm]
        simp
    · simp only [List.foldl_cons]
      exact List.mem_cons_of_mem a (List.mem_cons_of_mem b h1)

theorem foldl_min_le (l : List ℚ) : ∀ a x : ℚ, x ∈ a :: l → l.foldl min a ≤ x := by
  induction l with
  | nil =>
    intro a x hx
    simp at hx
    subst hx
    simp
  | cons b t ih =>
    intro a x hx
    simp only [List.foldl_cons]
    rcases List.mem_cons.mp hx with hxa | hx'
    · rw [hxa]
      exact le_trans (ih (min a b) (min a b) (by simp)) (min_le_left a b)
    · rcases List.mem_cons.mp hx' with hxb | hx''
      · rw [hxb]
        exact le_trans (ih (min a b) (min a b) (by simp)) (min_le_right a b)
      · exact ih (min a b) x (List.mem_cons_of_mem _ hx'')

theorem foldl_max_mem (l : List ℚ) : ∀ a : ℚ, l.foldl max a ∈ a :: l := by
  induction l with
  | nil => intro a; simp
  | cons b t ih =>
    intro a
    rcases List.mem_cons.mp (ih (max a b)) with h1 | h1
    · rcases max_choice a b with hm | hm
      · simp only [List.foldl_cons]
        rw [h1, hm]
        simp
      · simp only [List.foldl_cons]
        rw [h1, hm]
        simp
    · simp only [List.foldl_cons]
      exact List.mem_cons_of_mem a (List.mem_cons_of_mem b h1)

theorem foldl_max_ge (l : List ℚ) : ∀ a x : ℚ, x ∈ a :: l → x ≤ l.foldl max a := by
  induction l with
  | nil =>
    intro a x hx
    simp at hx
    subst hx
    simp
  | cons b t ih =>
    intro a x hx
    simp only [List.foldl_cons]
    rcases List.mem_cons.mp hx with hxa | hx'
    · rw [hxa]
      exact le_trans (le_max_left a b) (ih (max a b) (max a b) (by simp))
    · rcases List.mem_cons.mp hx' with hxb | hx''
      · rw [hxb]
        exact le_trans (le_max_right a b) (ih (max a b) (max a b) (by simp))
      · exact ih (max a b) x (List.mem_cons_of_mem _ hx'')

theorem record_metrics_of_pos (s : Server) (t : ℚ)
    (hlast : 0 < s.last_message_time) (hcount : 0 < s.interval_count) :
    record_metrics s t =
      { s with
          total_interval_ms := s.total_interval_ms + (t - s.last_message_time) * 1000
          min_interval_ms := min s.min_interval_ms ((t - s.last_message_time) * 1000)
          max_interval_ms := max s.max_interval_ms ((t - s.last_message_time) * 1000)
          interval_count := s.interval_count + 1
          last_message_time := t } := by
  have hc : ¬ s.interval_count = 0 := by omega
  have hnegmin : ∀ hm : ¬ (t - s.last_message_time) * 1000 < s.min_interval_ms,
      ¬ (s.interval_count = 0 ∨ (t - s.last_message_time) * 1000 < s.min_interval_ms) := by
    intro hm
    push_neg
    exact ⟨hc, le_of_not_lt hm⟩
  have hnegmax : ∀ hm : ¬ s.max_interval_ms < (t - s.last_message_time) * 1000,
      ¬ (s.interval_count = 0 ∨ s.max_interval_ms < (t - s.last_message_time) * 1000) := by
    intro hm
    push_neg
    exact ⟨hc, le_of_not_lt hm⟩
  simp only [record_metrics]
  rw [if_pos hlast]
  by_cases hmin : (t - s.last_message_time) * 1000 < s.min_interval_ms
  · rw [if_pos (Or.inr hmin)]
    by_cases hmax : s.max_interval_ms < (t - s.last_message_time) * 1000
    · rw [if_pos (Or.inr hmax)]
      simp [min_eq_right hmin.le, max_eq_right hmax.le]
    · rw [if_neg (hnegmax hmax)]
      simp [min_eq_right hmin.le, max_eq_left (le_of_not_lt hmax)]
  · rw [if_neg (hnegmin hmin)]
    by_cases hmax : s.max_interval_ms < (t - s.last_message_time) * 1000
    · rw [if_pos (Or.inr hmax)]
      simp [min_eq_left (le_of_not_lt hmin), max_eq_right hmax.le]
    · rw [if_neg (hnegmax hmax)]
      simp [min_eq_left (le_of_not_lt hmin), max_eq_left (le_of_not_lt hmax)]

theorem record_metrics_first (s : Server) (t : ℚ)
    (hlast : 0 < s.last_message_time) (hcount : s.interval_count = 0) :
    record_metrics s t =
      { s with
          total_interval_ms := s.total_interval_ms + (t - s.last_message_time) * 1000
          min_interval_ms := (t - s.last_message_time) * 1000
          max_interval_ms := (t - s.last_message_time) * 1000
          interval_count := s.interval_count + 1
          last_message_time := t } := by
  simp only [record_metrics]
  rw [if_pos hlast, if_pos (Or.inl hcount), if_pos (Or.inl hcount)]

theorem record_metrics_foldl (rest : List ℚ) :
    ∀ s : Server, 0 < s.last_message_time → 0 < s.interval_count →
      (∀ t ∈ rest, 0 < t) →
      (rest.foldl record_metrics s).interval_count
          = s.interval_count + rest.length ∧
      (rest.foldl record_metrics s).total_interval_ms
          = s.total_interval_ms + (interval_diffs s.last_message_time rest).sum ∧
      (rest.foldl record_metrics s).min_interval_ms
          = (interval_diffs s.last_message_time rest).foldl min s.min_interval_ms ∧
      (rest.foldl record_metrics s).max_interval_ms
          = (interval_diffs s.last_message_time rest).foldl max s.max_interval_ms := by
  induction rest with
  | nil =>
    intro s h1 h2 h3
    simp [interval_diffs]
  | cons t rest ih =>
    intro s hlast hcount hpos
    simp only [List.foldl_cons]
    rw [record_metrics_of_pos s t hlast hcount]
    have hdiffs : interval_diffs s.last_message_time (t :: rest)
        = (t - s.last_message_time) * 1000 :: interval_diffs t rest := by
      simp [interval_diffs]
    obtain ⟨ha, hb, hc, hd⟩ := ih
      { s with
          total_interval_ms := s.total_interval_ms + (t - s.last_message_time) * 1000
          min_interval_ms := min s.min_interval_ms ((t - s.last_message_time) * 1000)
          max_interval_ms := max s.max_interval_ms ((t - s.last_message_time) * 1000)
          interval_count := s.interval_count + 1
          last_message_time := t }
      (hpos t (by simp)) (by simp) (fun x hx => hpos x (by simp [hx]))
    refine ⟨?_, ?_, ?_, ?_⟩
    · rw [ha]
      simp
      omega
    · rw [hb, hdiffs]
      simp
      ring
    · rw [hc, hdiffs]
      simp
    · rw [hd, hdiffs]
      simp

theorem record_metrics_initial (t : ℚ) :
    record_metrics initial_server t
      = { initial_server with last_message_time := t } := by
  simp [record_metrics, initial_server]

/-- C9: folding the server's message-receipt metrics update over `n`
arrivals at positive nondecreasing timestamps records exactly `n - 1`
intervals; `server_get_metrics` then reports average
`= (sum of the n-1 consecutive differences) / (n-1)`, minimum and maximum
equal to the least and greatest of those differences, and all three as 0
when no interval has been measured (`n ≤ 1`). -/
theorem c9_metrics_accuracy (ts : List ℚ) (hpos : ∀ t ∈ ts, 0 < t)
    (hsorted : ts.Chain' (· ≤ ·)) :
    (ts.foldl record_metrics initial_server).interval_count = ts.length - 1 ∧
    (ts.length ≤ 1 →
      server_get_metrics_avg_latency_ms (ts.foldl record_metrics initial_server) = 0 ∧
      server_get_metrics_min_latency_ms (ts.foldl record_metrics initial_server) = 0 ∧
      server_get_metrics_max_latency_ms (ts.foldl record_metrics initial_server) = 0) ∧
    (2 ≤ ts.length →
      server_get_metrics_avg_latency_ms (ts.foldl record_metrics initial_server)
          = (inter_arrival_diffs ts).sum / ((ts.length - 1 : ℕ) : ℚ) ∧
      server_get_metrics_min_latency_ms (ts.foldl record_metrics initial_server)
          ∈ inter_arrival_diffs ts ∧
      (∀ d ∈ inter_arrival_diffs ts,
        server_get_metrics_min_latency_ms (ts.foldl record_metrics initial_server) ≤ d) ∧
      server_get_metrics_max_latency_ms (ts.foldl record_metrics initial_server)
          ∈ inter_arrival_diffs ts ∧
      (∀ d ∈ inter_arrival_diffs ts,
        d ≤ server_get_metrics_max_latency_ms (ts.foldl record_metrics initial_server))) := by
  rcases ts with _ | ⟨t1, ts'⟩
  · refine ⟨rfl, fun _ => ?_, fun h => absurd h (by simp)⟩
    refine ⟨?_, ?_, ?_⟩ <;>
      simp [server_get_metrics_avg_latency_ms, server_get_metrics_min_latency_ms,
        server_get_metrics_max_latency_ms, initial_server]
  · rcases ts' with _ | ⟨t2, rest⟩
    · rw [List.foldl_cons, List.foldl_nil, record_metrics_initial]
      refine ⟨rfl, fun _ => ?_, fun h => absurd h (by simp)⟩
      refine ⟨?_, ?_, ?_⟩ <;>
        simp [server_get_metrics_avg_latency_ms, server_get_metrics_min_latency_ms,
          server_get_metrics_max_latency_ms, initial_server]
    · have ht1 : 0 < t1 := hpos t1 (by simp)
      have ht2 : 0 < t2 := hpos t2 (by simp)
      have h2 : record_metrics { initial_server with last_message_time := t1 } t2
          = { initial_server with
                total_interval_ms := (t2 - t1) * 1000
                min_interval_ms := (t2 - t1) * 1000
                max_interval_ms := (t2 - t1) * 1000
                interval_count := 1
                last_message_time := t2 } := by
        rw [record_metrics_first _ t2 ht1 rfl]
        simp [initial_server]
      have hfinal : (t1 :: t2 :: rest).foldl record_metrics initial_server
          = rest.foldl record_metrics
              { initial_server with
                  total_interval_ms := (t2 - t1) * 1000
                  min_interval_ms := (t2 - t1) * 1000
                  max_interval_ms := (t2 - t1) * 1000
                  interval_count := 1
                  last_message_time := t2 } := by
        rw [List.foldl_cons, List.foldl_cons, record_metrics_initial, h2]
      obtain ⟨ha, hb, hc, hd⟩ := record_metrics_foldl rest
        { initial_server with
            total_interval_ms := (t2 - t1) * 1000
            min_interval_ms := (t2 - t1) * 1000
            max_interval_ms := (t2 - t1) * 1000
            interval_count := 1
            last_message_time := t2 }
        ht2 (by norm_num) (fun x hx => hpos x (by simp [hx]))
      have hdiffs : inter_arrival_diffs (t1 :: t2 :: rest)
          = (t2 - t1) * 1000 :: interval_diffs t2 rest := by
        simp [inter_arrival_diffs, interval_diffs]
      rw [hfinal]
      refine ⟨?_, ?_, ?_⟩
      · rw [ha]
        simp
        omega
      · intro h
        simp only [List.length_cons] at h
        omega
      · intro _
        have hpos1 : (0 : ℕ) < 1 + rest.length := by omega
        refine ⟨?_, ?_, ?_, ?_, ?_⟩
        · rw [server_get_metrics_avg_latency_ms, ha, hb, hdiffs, if_pos hpos1]
          simp only [List.sum_cons, List.length_cons]
          push_cast
          ring_nf
        · rw [server_get_metrics_min_latency_ms, ha, hc, hdiffs, if_pos hpos1]
          exact foldl_min_mem _ _
        · intro d hd
          rw [server_get_metrics_min_latency_ms, ha, hc, if_pos hpos1]
          rw [hdiffs] at hd
          exact foldl_min_le _ _ d hd
        · rw [server_get_metrics_max_latency_ms, ha, hd, hdiffs, if_pos hpos1]
          exact foldl_max_mem _ _
        · intro d hdm
          rw [server_get_metrics_max_latency_ms, ha, hd, if_pos hpos1]
          rw [hdiffs] at hdm
          exact foldl_max_ge _ _ d hdm

/-- Witness for C9 at the arrivals `[1, 2, 4]`: two intervals measured
and the reported average matches the reference arithmetic. -/
theorem c9_metrics_accuracy_witness :
    (([1, 2, 4] : List ℚ).foldl record_metrics initial_server).interval_count
        = ([1, 2, 4] : List ℚ).length - 1 ∧
    server_get_metrics_avg_latency_ms
        (([1, 2, 4] : List ℚ).foldl record_metrics initial_server)
      = (inter_arrival_diffs [1, 2, 4]).sum
          / (((([1, 2, 4] : List ℚ).length - 1 : ℕ)) : ℚ) :=
  ⟨(c9_metrics_accuracy [1, 2, 4] (by decide)
      (by norm_num [List.chain'_cons, List.chain'_singleton])).1,
   ((c9_metrics_accuracy [1, 2, 4] (by decide)
      (by norm_num [List.chain'_cons, List.chain'_singleton])).2.2 (by decide)).1⟩
